import Mathlib

/-!
# Verification of the tech-funding-analysis dashboard pipeline

A shallow embedding of the data-cleaning and aggregation pipeline of
`tech-funding-analysis/hello.py`.  Dataframes are lists of records with
optional string cells; column presence is tracked by boolean flags on the
dataframe.  Numeric funding amounts are modelled as rationals, funding
dates as months encoded `year * 12 + monthIndex`.
-/

namespace Funding

/-! ## Character-level helpers (modelling pandas string coercions) -/

/-- Numeric value of a decimal digit character, `none` for non-digits. -/
def digitVal (c : Char) : Option Nat :=
  if 48 ≤ c.toNat ∧ c.toNat ≤ 57 then some (c.toNat - 48) else none

/-- Returns `true` iff every character is a decimal digit. -/
def allDigits (cs : List Char) : Bool :=
  cs.all fun c => (digitVal c).isSome

/-- The natural number denoted by a digit string (empty list denotes 0). -/
def natOfDigits (cs : List Char) : Nat :=
  cs.foldl (fun acc c => acc * 10 + (c.toNat - 48)) 0

/-- Whitespace test used by stripping (space, tab, newline, carriage return). -/
def isWs (c : Char) : Bool :=
  c = ' ' ∨ c = '\t' ∨ c = '\n' ∨ c = '\r'

/-- Strip leading and trailing whitespace from a character list. -/
def trimChars (cs : List Char) : List Char :=
  ((cs.dropWhile isWs).reverse.dropWhile isWs).reverse

/-- Lower-case an ASCII letter, identity elsewhere. -/
def lowerChar (c : Char) : Char :=
  if 65 ≤ c.toNat ∧ c.toNat ≤ 90 then Char.ofNat (c.toNat + 32) else c

/-- Model of `pd.to_numeric(·, errors='coerce')` on one cell: an optional
sign followed by decimal digits with an optional fractional part; anything
else coerces to null (`none`).  Exponents are not used by the dataset. -/
def parseNumeric (s : String) : Option ℚ :=
  let cs := trimChars s.data
  let neg : Bool := match cs with
    | '-' :: _ => true
    | _ => false
  let cs' : List Char := match cs with
    | '+' :: r => r
    | '-' :: r => r
    | _ => cs
  let ip := cs'.takeWhile fun c => (digitVal c).isSome
  let rest := cs'.dropWhile fun c => (digitVal c).isSome
  match rest with
  | [] =>
      if ip = [] then none
      else some (if neg then -(natOfDigits ip : ℚ) else (natOfDigits ip : ℚ))
  | '.' :: fr =>
      if allDigits fr ∧ (ip ≠ [] ∨ fr ≠ []) then
        let v : ℚ := (natOfDigits ip : ℚ) + (natOfDigits fr : ℚ) / (10 : ℚ) ^ fr.length
        some (if neg then -v else v)
      else none
  | _ => none

/-- The twelve abbreviated month names recognised by `strptime`'s `%b`,
in lower case. -/
def monthNames : List (List Char) :=
  ["jan".data, "feb".data, "mar".data, "apr".data, "may".data, "jun".data,
   "jul".data, "aug".data, "sep".data, "oct".data, "nov".data, "dec".data]

/-- Index of the first occurrence of `s` in `l`. -/
def idxIn {α : Type} [DecidableEq α] (l : List α) (s : α) : Option Nat :=
  match l with
  | [] => none
  | x :: xs => if x = s then some 0 else (idxIn xs s).map (· + 1)

/-- Split a character list at its first `'-'`. -/
def splitAtDash : List Char → Option (List Char × List Char)
  | [] => none
  | c :: cs =>
      if c = '-' then some ([], cs)
      else (splitAtDash cs).map fun p => (c :: p.1, p.2)

/-- Model of `strptime` `%y`: one or two digits; 0-68 maps to 2000-2068,
69-99 to 1969-1999. -/
def parseYear2 (cs : List Char) : Option Nat :=
  if allDigits cs ∧ (cs.length = 1 ∨ cs.length = 2) then
    let v := natOfDigits cs
    some (if v ≤ 68 then 2000 + v else 1900 + v)
  else none

/-- Model of `pd.to_datetime(·, format='%b-%y', errors='coerce')` on one
cell: abbreviated month name (case-insensitive), a dash, a two-digit year.
The parsed month is encoded as `year * 12 + monthIndex`. -/
def parseMonthYear (s : String) : Option Nat :=
  match splitAtDash s.data with
  | none => none
  | some (m, y) =>
      (idxIn monthNames (m.map lowerChar)).bind fun mi =>
        (parseYear2 y).map fun yy => yy * 12 + mi

/-! ## Data model

A raw row has one optional string cell per column of the CSV schema;
`none` is a null cell.  Column *presence* is a dataframe-level flag: when a
`has…` flag is `false` the corresponding cells are meaningless and the
script's `'…' in df.columns` guards take the `False` branch. -/

/-- One raw record of the funding CSV. -/
structure Row where
  company : Option String
  region : Option String
  vertical : Option String
  amount : Option String
  stage : Option String
  date : Option String
deriving DecidableEq

/-- The raw dataframe: column-presence flags plus the records.  The
`index`/`Website` columns dropped by the script carry no data relevant to
any operation and are represented by their flags alone. -/
structure Df where
  hasIndexCol : Bool
  hasWebsite : Bool
  hasCompany : Bool
  hasRegion : Bool
  hasVertical : Bool
  hasAmount : Bool
  hasStage : Bool
  hasDate : Bool
  rows : List Row
deriving DecidableEq

/-- One cleaned record: the funding amount has been coerced to a number
and, when the date column exists, the date has been parsed. -/
structure CRow where
  company : Option String
  region : Option String
  vertical : Option String
  amount : ℚ
  stage : Option String
  date : Option Nat
deriving DecidableEq

/-- The cleaned dataframe (the `index`/`Website` columns are gone). -/
structure CDf where
  hasCompany : Bool
  hasRegion : Bool
  hasVertical : Bool
  hasStage : Bool
  hasDate : Bool
  rows : List CRow
deriving DecidableEq

/-! ## Clean -/

/-- The two fatal failures of the cleaning block. -/
inductive CleanErr where
  | MissingColumn
  | EmptyResult
deriving DecidableEq

/-- Model of `pd.to_numeric(col, errors='coerce')` followed by
`dropna(subset=[col])`: rows whose amount cell is null or unparseable are
dropped; the others keep their coerced numeric amount. -/
def coerceAmount (rows : List Row) : List (Row × ℚ) :=
  rows.filterMap fun r => (r.amount.bind parseNumeric).map fun q => (r, q)

/-- The optional date-cleaning step: when the `Funding Date` column is
present, parse it with `%b-%y` and drop rows whose date does not parse;
when absent, skip date cleaning entirely. -/
def cleanDates (hasDate : Bool) (l : List (Row × ℚ)) : List CRow :=
  if hasDate then
    l.filterMap fun p =>
      (p.1.date.bind parseMonthYear).map fun d =>
        ⟨p.1.company, p.1.region, p.1.vertical, p.2, p.1.stage, some d⟩
  else
    l.map fun p => ⟨p.1.company, p.1.region, p.1.vertical, p.2, p.1.stage, none⟩

/-- The record-level part of the cleaning block. -/
def cleanRows (df : Df) : List CRow :=
  cleanDates df.hasDate (coerceAmount df.rows)

/-- The module-level cleaning block of `hello.py`: drop `index`/`Website`,
require the `Funding Amount (USD)` column (else fatal `MissingColumn`),
coerce amounts and drop nulls, parse dates when the column exists and drop
nulls, and fail with fatal `EmptyResult` when no record survives. -/
def Clean (df : Df) : Except CleanErr CDf :=
  if df.hasAmount = false then .error .MissingColumn
  else
    let rows := cleanRows df
    if rows.isEmpty then .error .EmptyResult
    else .ok ⟨df.hasCompany, df.hasRegion, df.hasVertical, df.hasStage, df.hasDate, rows⟩

/-! ## Stable sorting

pandas sorts used by the script (`nlargest`, `sort_values` on distinct or
NaN-grouped keys) are modelled by a stable insertion sort on lists. -/

/-- Insert `a` before the first element `b` with `le a b`; keeps `a` after
every strictly earlier-ordered element, giving a stable sort. -/
def insertS {α : Type} (le : α → α → Bool) (a : α) : List α → List α
  | [] => [a]
  | b :: l => if le a b then a :: b :: l else b :: insertS le a l

/-- Stable insertion sort. -/
def insSort {α : Type} (le : α → α → Bool) : List α → List α
  | [] => []
  | a :: l => insertS le a (insSort le l)

theorem insertS_perm {α : Type} (le : α → α → Bool) (a : α) (l : List α) :
    (insertS le a l).Perm (a :: l) := by
  induction l with
  | nil => exact List.Perm.refl _
  | cons b l ih =>
      simp only [insertS]
      by_cases h : le a b
      · rw [if_pos h]
      · rw [if_neg h]
        exact (ih.cons b).trans (List.Perm.swap a b l)

theorem insSort_perm {α : Type} (le : α → α → Bool) (l : List α) :
    (insSort le l).Perm l := by
  induction l with
  | nil => exact List.Perm.refl _
  | cons a l ih => exact (insertS_perm le a (insSort le l)).trans (ih.cons a)

theorem mem_insSort {α : Type} (le : α → α → Bool) {a : α} {l : List α} :
    a ∈ insSort le l ↔ a ∈ l :=
  (insSort_perm le l).mem_iff

theorem insertS_pairwise {α : Type} {le : α → α → Bool}
    (htrans : ∀ a b c, le a b = true → le b c = true → le a c = true)
    (htot : ∀ a b, le a b = false → le b a = true)
    {a : α} {l : List α} (h : l.Pairwise (le · · = true)) :
    (insertS le a l).Pairwise (le · · = true) := by
  induction l with
  | nil => simp [insertS]
  | cons b l ih =>
      simp only [insertS]
      by_cases hab : le a b
      · rw [if_pos hab]
        refine List.Pairwise.cons ?_ h
        intro x hx
        rcases List.mem_cons.mp hx with hx | hx
        · exact hx ▸ hab
        · exact htrans a b x hab ((List.pairwise_cons.mp h).1 x hx)
      · rw [if_neg hab]
        refine List.Pairwise.cons ?_ (ih (List.pairwise_cons.mp h).2)
        intro x hx
        rcases List.mem_cons.mp ((insertS_perm le a l).mem_iff.mp hx) with hx | hx
        · exact hx ▸ htot a b (Bool.eq_false_iff.mpr hab)
        · exact (List.pairwise_cons.mp h).1 x hx

theorem insSort_pairwise {α : Type} {le : α → α → Bool}
    (htrans : ∀ a b c, le a b = true → le b c = true → le a c = true)
    (htot : ∀ a b, le a b = false → le b a = true)
    (l : List α) : (insSort le l).Pairwise (le · · = true) := by
  induction l with
  | nil => simp [insSort]
  | cons a l ih => exact insertS_pairwise htrans htot ih

theorem insertS_filter_pos {α : Type} {le : α → α → Bool} (p : α → Bool)
    {a : α} (hpa : p a = true) :
    ∀ {l : List α}, (∀ c ∈ l, p c = true → le a c = true) →
      (insertS le a l).filter p = a :: l.filter p := by
  intro l
  induction l with
  | nil => intro _; simp [insertS, hpa]
  | cons b l ih =>
      intro h
      simp only [insertS]
      by_cases hab : le a b
      · rw [if_pos hab]
        simp [List.filter_cons, hpa]
      · have hpb : p b = false := by
          cases hb : p b
          · rfl
          · exact absurd (h b (by simp) hb) (Bool.eq_false_iff.mp (Bool.eq_false_iff.mpr hab) ∘ id)
        rw [if_neg hab, List.filter_cons, List.filter_cons, hpb]
        simp only [Bool.false_eq_true, if_false, cond_false]
        rw [ih fun c hc hpc => h c (by simp [hc]) hpc]

theorem insertS_filter_neg {α : Type} {le : α → α → Bool} (p : α → Bool)
    {a : α} (hpa : p a = false) (l : List α) :
    (insertS le a l).filter p = l.filter p := by
  induction l with
  | nil => simp [insertS, hpa]
  | cons b l ih =>
      simp only [insertS]
      by_cases hab : le a b
      · rw [if_pos hab]
        simp [List.filter_cons, hpa]
      · rw [if_neg hab, List.filter_cons, List.filter_cons]
        cases hb : p b <;> simp [ih]

/-- A stable sort does not reorder elements whose sort keys are all
mutually `le`-equivalent: filtering to such elements commutes with the
sort. -/
theorem insSort_filter_stable {α : Type} {le : α → α → Bool} (p : α → Bool)
    (hp : ∀ a b, p a = true → p b = true → le a b = true) (l : List α) :
    (insSort le l).filter p = l.filter p := by
  induction l with
  | nil => rfl
  | cons a l ih =>
      simp only [insSort]
      cases hpa : p a
      · rw [insertS_filter_neg p hpa, ih, List.filter_cons, hpa]
        simp
      · rw [insertS_filter_pos p hpa fun c _ hc => hp a c hpa hc, ih,
          List.filter_cons, hpa]
        simp

/-! ## Grouping and top-k selection -/

/-- Lexicographic comparison of character lists by code point, the order
pandas uses when sorting string group keys. -/
def lexLe : List Char → List Char → Bool
  | [], _ => true
  | _ :: _, [] => false
  | a :: as, b :: bs =>
      if a.toNat < b.toNat then true
      else if b.toNat < a.toNat then false
      else lexLe as bs

/-- String order by code points (Python string comparison). -/
def strLe (a b : String) : Bool := lexLe a.data b.data

/-- Model of `pandas.nlargest`, a stable descending selection: stable sort by `le`
and take the first `k` (ties keep first-seen order, `keep='first'`). -/
def nlargest {α : Type} (le : α → α → Bool) (k : Nat) (l : List α) : List α :=
  (insSort le l).take k

/-- The distinct non-null values of `key`, sorted ascending — the group
keys produced by `groupby(column)` (null keys are dropped, keys sorted). -/
def groupKeys (rows : List CRow) (key : CRow → Option String) : List String :=
  (insSort strLe (rows.filterMap key)).dedup

/-- Model of `groupby(column)['Funding Amount (USD)'].sum()`: per distinct non-null
key, the sum of the funding amounts of the records carrying that key. -/
def groupSums (rows : List CRow) (key : CRow → Option String) : List (String × ℚ) :=
  (groupKeys rows key).map fun g =>
    (g, ((rows.filter fun r => decide (key r = some g)).map (·.amount)).sum)

/-- Model of `groupby(column)[amount].sum().nlargest(k)`: the `k` groups with the
largest summed amounts, descending, ties stable. -/
def TopKByGroup (rows : List CRow) (key : CRow → Option String) (k : Nat) :
    List (String × ℚ) :=
  nlargest (fun p q => decide (q.2 ≤ p.2)) k (groupSums rows key)

/-- The Region top-k view: guarded by `'Region' in df_cleaned.columns`. -/
def TopKRegionView (cdf : CDf) (k : Nat) : List (String × ℚ) :=
  if cdf.hasRegion then TopKByGroup cdf.rows (·.region) k else []

/-- Model of `s.split(',')[0].strip()`: the substring before the first comma,
trimmed of surrounding whitespace. -/
def firstTokenTrim (s : String) : String :=
  ⟨trimChars (s.data.takeWhile fun c => ¬(c = ','))⟩

/-- The Vertical top-k view as the script computes it: group and select
first, then rewrite the `Vertical` labels of the *selected* rows with
`.str.split(',').str[0].str.strip()`. -/
def TopKVerticalView (cdf : CDf) (k : Nat) : List (String × ℚ) :=
  if cdf.hasVertical then
    (TopKByGroup cdf.rows (·.vertical) k).map fun p => (firstTokenTrim p.1, p.2)
  else []

/-- The Vertical top-k computation as the specification words it: every
record's Vertical value is reduced to its first comma-token *before*
grouping.  Stated only to be compared with `TopKVerticalView`. -/
def specVerticalTopK (cdf : CDf) (k : Nat) : List (String × ℚ) :=
  if cdf.hasVertical then
    TopKByGroup (cdf.rows.map fun r => { r with vertical := r.vertical.map firstTokenTrim })
      (·.vertical) k
  else []

/-! ## Stage vocabulary, box-plot view, stage summary -/

/-- The fixed 18-entry stage vocabulary `stage_order` of the script. -/
def stage_order : List String :=
  ["Pre-Seed", "Seed", "Angel", "Series A", "Series B", "Series C", "Series D",
   "Series E", "Series F", "Series G", "Series H", "ICO", "Debt Financing",
   "Private Equity", "Crowdfunding", "Grant", "Unknown", "Undisclosed"]

/-- The categorical code of a stage cell: its vocabulary index, `none`
for a null cell or a stage outside the vocabulary. -/
def stageCode (c : Option String) : Option Nat :=
  c.bind fun s => idxIn stage_order s

/-- Sort key for stage-ordered outputs: the vocabulary index, with every
unknown stage mapped to one common rank past all known indices (pandas
places NaN keys last, preserving their relative order). -/
def stageRank (c : Option String) : Nat :=
  (stageCode c).getD stage_order.length

/-- Model of `Series.quantile(0.995)` with the default linear interpolation over
the sorted values; `0` on an empty list (pandas would yield NaN, but the
script only reaches this after `Clean` guarantees a nonempty dataset). -/
def quantile995 (l : List ℚ) : ℚ :=
  let s := insSort (fun a b => decide (a ≤ b)) l
  if s.length = 0 then 0
  else
    let h : ℚ := ((s.length - 1 : Nat) : ℚ) * (995 / 1000)
    let i : Nat := h.floor.toNat
    s.getD i 0 + (h - (i : ℚ)) * (s.getD (i + 1) (s.getD i 0) - s.getD i 0)

/-- Model of `Series.median()`: midpoint of the sorted values. -/
def median (l : List ℚ) : ℚ :=
  let s := insSort (fun a b => decide (a ≤ b)) l
  if s.length = 0 then 0
  else if s.length % 2 = 1 then s.getD (s.length / 2) 0
  else (s.getD (s.length / 2 - 1) 0 + s.getD (s.length / 2) 0) / 2

/-- The box-plot data: guarded by `'Funding Stage' in df_cleaned.columns`;
the 99.5th-percentile cutoff is computed over the *whole* cleaned dataset,
then rows with a stage outside the vocabulary are dropped
(`dropna(subset=['Funding Stage Cat'])`), then rows with
`Funding Amount (USD) >= cutoff` are dropped, and the survivors are
sorted by categorical stage order (`sort_values('Funding Stage Cat')`). -/
def StageBoxplotView (cdf : CDf) : List CRow :=
  if cdf.hasStage then
    insSort (fun a b => decide (stageRank a.stage ≤ stageRank b.stage))
      (((cdf.rows.filter fun r => (stageCode r.stage).isSome).filter fun r =>
        decide (r.amount < quantile995 (cdf.rows.map (·.amount)))))
  else []

/-- A working dataframe as the script holds it around the box-plot block:
the cleaned data plus the optional transient `'Funding Stage Cat'` column
(`none` = column absent). -/
structure WorkDf where
  base : CDf
  catCol : Option (List (Option Nat))
deriving DecidableEq

/-- The box-plot block as executed on the shared `df_cleaned`: add the
`'Funding Stage Cat'` column, derive the view, then drop the column again
(guarded by `'Funding Stage Cat' in df_cleaned.columns`).  Returns the
dataframe as the block leaves it, paired with the view. -/
def StageBoxplotOp (d : WorkDf) : WorkDf × List CRow :=
  if d.base.hasStage then
    let d1 : WorkDf := ⟨d.base, some (d.base.rows.map fun r => stageCode r.stage)⟩
    let view := StageBoxplotView d.base
    let d2 : WorkDf := if d1.catCol.isSome then ⟨d1.base, none⟩ else d1
    (d2, view)
  else (d, [])

/-- One row of the per-stage summary table: count, sum, mean, median of
the funding amounts of one stage group. -/
structure SRow where
  stage : String
  count : Nat
  total : ℚ
  mean : ℚ
  med : ℚ
deriving DecidableEq

/-- Model of `groupby('Funding Stage')[amount].agg(['count','sum','mean','median'])`:
one aggregate row per distinct non-null stage, keys sorted ascending. -/
def stageGroups (cdf : CDf) : List SRow :=
  (groupKeys cdf.rows (·.stage)).map fun g =>
    let amts := (cdf.rows.filter fun r => decide (r.stage = some g)).map (·.amount)
    ⟨g, amts.length, amts.sum, amts.sum / (amts.length : ℚ), median amts⟩

/-- The stage-summary table: guarded by `'Funding Stage' in columns`;
rows sorted by `sort_order` (the vocabulary index, `NaN` for unknown
stages) with `na_position='last'`. -/
def StageSummary (cdf : CDf) : List SRow :=
  if cdf.hasStage then
    insSort (fun a b => decide (stageRank (some a.stage) ≤ stageRank (some b.stage)))
      (stageGroups cdf)
  else []

/-! ## Region filter and top-n spotlight -/

/-- The region deep-dive view: skipped (empty) when the `Region` column is
absent; for the sentinel `"All"`, `df_cleaned.nlargest(20, 'Funding Date')`
— which raises a fatal `KeyError` (modelled as `.error ()`) when the
`Funding Date` column is absent; otherwise the rows whose `Region` equals
the selected value, in original order. -/
def RegionFilter (cdf : CDf) (region : String) : Except Unit (List CRow) :=
  if cdf.hasRegion = false then .ok []
  else if region = "All" then
    if cdf.hasDate then
      .ok (nlargest (fun a b => decide (b.date.getD 0 ≤ a.date.getD 0)) 20 cdf.rows)
    else .error ()
  else .ok (cdf.rows.filter fun r => decide (r.region = some region))

/-- The "largest rounds" spotlight: guarded by both `Company` and
`Funding Date` being present; `nlargest(n, 'Funding Amount (USD)')`. -/
def TopNByAmount (cdf : CDf) (n : Nat) : List CRow :=
  if cdf.hasCompany ∧ cdf.hasDate then
    nlargest (fun a b => decide (b.amount ≤ a.amount)) n cdf.rows
  else []

/-! ## Concrete datasets used to instantiate the theorems -/

/-- A raw dataset with all columns, one fully valid row, one row with an
unparseable amount and one row with an unparseable date. -/
def dfEx1 : Df :=
  ⟨true, true, true, true, true, true, true, true,
   [⟨some "Acme", some "US", some "AI", some "100", some "Seed", some "Jan-20"⟩,
    ⟨some "Bcme", some "EU", some "Fin", some "n/a", some "Seed", some "Feb-20"⟩,
    ⟨some "Ccme", some "EU", some "Fin", some "50", some "Seed", some "someday"⟩]⟩

/-- The one cleaned record `Clean` produces from `dfEx1`. -/
def crEx1 : CRow := ⟨some "Acme", some "US", some "AI", 100, some "Seed", some 24240⟩

/-- The cleaned dataset produced from `dfEx1`. -/
def cdfEx1 : CDf := ⟨true, true, true, true, true, [crEx1]⟩

/-- The spec's example input: a single record whose Funding Amount cell is
the string `"not a number"`, amount column present, no date column. -/
def dfBadAmount : Df :=
  ⟨false, false, true, true, true, true, true, false,
   [⟨some "Acme", some "US", some "AI", some "not a number", some "Seed", none⟩]⟩

/-- A cleaned row with a given vertical and amount. -/
def vRow (v : String) (a : ℚ) : CRow := ⟨some "C", some "US", some v, a, some "Seed", some 5⟩

/-- Cleaned dataset with one single-label and one multi-label vertical. -/
def cdfVert : CDf :=
  ⟨true, true, true, true, true, [vRow "AI" 100, vRow "AI, Machine Learning" 50]⟩

/-- A cleaned row with a given region, amount and date. -/
def rRow (reg : String) (a : ℚ) (d : Nat) : CRow :=
  ⟨some "C", some reg, some "AI", a, some "Seed", some d⟩

/-- Cleaned dataset with the `Region` column but no `Funding Date`
column. -/
def cdfNoDate : CDf :=
  ⟨true, true, true, true, false, [⟨some "C", some "US", some "AI", 1, some "Seed", none⟩]⟩

/-- Cleaned dataset whose two region groups have equal summed amounts. -/
def cdfTie : CDf := ⟨true, true, true, true, true, [rRow "B" 100 5, rRow "A" 100 6]⟩

/-- Cleaned dataset for the box-plot view: amounts 1 and 2, both with a
vocabulary stage, so the 99.5th-percentile cutoff is 1.995. -/
def cdfStage : CDf :=
  ⟨true, true, true, true, true,
   [⟨some "C", some "US", some "AI", 1, some "Seed", some 5⟩,
    ⟨some "D", some "US", some "AI", 2, some "Seed", some 6⟩]⟩

/-- Cleaned dataset with 21 rows of pairwise distinct dates `0..20`. -/
def cdfRecent : CDf :=
  ⟨true, true, true, true, true,
   (List.range 21).map fun i => ⟨some "C", some "US", some "AI", 1, some "Seed", some i⟩⟩

/-- Cleaned dataset with one known stage and two unknown stages. -/
def cdfStages : CDf :=
  ⟨true, true, true, true, true,
   [⟨none, none, none, 5, some "Zed", none⟩,
    ⟨none, none, none, 3, some "Seed", none⟩,
    ⟨none, none, none, 7, some "Aard", none⟩]⟩

/-- A working dataframe with no transient category column. -/
def wdfEx : WorkDf := ⟨cdfStage, none⟩

/-- A cleaned row whose region cell is null. -/
def nullRegionRow : CRow := ⟨some "N", none, some "AI", 1000, some "Seed", some 7⟩

end Funding

deriving instance DecidableEq for Except

namespace Funding

/-! ## Structural facts about `Clean` -/

theorem clean_ok_eq {df : Df} {cdf : CDf} (h : Clean df = .ok cdf) :
    df.hasAmount = true ∧
    cdf = ⟨df.hasCompany, df.hasRegion, df.hasVertical, df.hasStage, df.hasDate,
           cleanRows df⟩ := by
  unfold Clean at h
  by_cases hA : df.hasAmount = false
  · rw [if_pos hA] at h
    exact absurd h (by simp)
  · rw [if_neg hA] at h
    simp only [] at h
    by_cases hE : (cleanRows df).isEmpty
    · rw [if_pos hE] at h
      exact absurd h (by simp)
    · rw [if_neg hE] at h
      refine ⟨Bool.eq_true_of_not_eq_false hA, ?_⟩
      exact (Except.ok.injEq _ _).mp h.symm

/-- C1: every record returned by `Clean` descends from a raw record whose
Funding Amount cell coerces to exactly the record's numeric amount (so no
null or non-numeric amount survives, and amounts are never repaired or
defaulted), and — whenever the Funding Date column exists in the input —
whose Funding Date cell parses to exactly the record's date (so no
unparseable date survives); all other cells are carried over unchanged. -/
theorem clean_validates_amount_and_date (df : Df) (cdf : CDf)
    (h : Clean df = .ok cdf) :
    ∀ r ∈ cdf.rows, ∃ raw ∈ df.rows,
      raw.amount.bind parseNumeric = some r.amount ∧
      r.company = raw.company ∧ r.region = raw.region ∧
      r.vertical = raw.vertical ∧ r.stage = raw.stage ∧
      (df.hasDate = true → raw.date.bind parseMonthYear = r.date ∧ r.date ≠ none) ∧
      (df.hasDate = false → r.date = none) := by
  intro r hr
  rw [(clean_ok_eq h).2] at hr
  simp only [cleanRows, cleanDates] at hr
  cases hD : df.hasDate with
  | false =>
      rw [hD, if_neg (by simp)] at hr
      obtain ⟨p, hp, hpr⟩ := List.mem_map.mp hr
      obtain ⟨raw, hraw, hcoe⟩ := List.mem_filterMap.mp hp
      obtain ⟨q, hq, hpq⟩ := Option.map_eq_some'.mp hcoe
      refine ⟨raw, hraw, ?_⟩
      subst hpq
      cases hpr
      exact ⟨hq, rfl, rfl, rfl, rfl, fun hcon => by simp [hD] at hcon, fun _ => rfl⟩
  | true =>
      rw [hD, if_pos rfl] at hr
      obtain ⟨p, hp, hpr⟩ := List.mem_filterMap.mp hr
      obtain ⟨raw, hraw, hcoe⟩ := List.mem_filterMap.mp hp
      obtain ⟨q, hq, hpq⟩ := Option.map_eq_some'.mp hcoe
      obtain ⟨d, hd, hdr⟩ := Option.map_eq_some'.mp hpr
      refine ⟨raw, hraw, ?_⟩
      subst hpq
      cases hdr
      exact ⟨hq, rfl, rfl, rfl, rfl, fun _ => ⟨hd, by simp⟩,
        fun hcon => by simp [hD] at hcon⟩

set_option maxRecDepth 4000 in
/-- Witness for C1 at `dfEx1`: the single surviving record. -/
theorem clean_validates_amount_and_date_witness :
    ∃ raw ∈ dfEx1.rows,
      raw.amount.bind parseNumeric = some crEx1.amount ∧
      crEx1.company = raw.company ∧ crEx1.region = raw.region ∧
      crEx1.vertical = raw.vertical ∧ crEx1.stage = raw.stage ∧
      (dfEx1.hasDate = true → raw.date.bind parseMonthYear = crEx1.date ∧
        crEx1.date ≠ none) ∧
      (dfEx1.hasDate = false → crEx1.date = none) :=
  clean_validates_amount_and_date dfEx1 cdfEx1 (by decide) crEx1 (by decide)

/-- C2: `Clean` fails with `MissingColumn` iff the funding-amount column
is absent; when the column is present it fails with `EmptyResult` iff no
record survives the coercion/validation pipeline; and the spec's example —
a single record whose amount cell reads `"not a number"` — fails with
`EmptyResult`. -/
theorem clean_failure_semantics (df : Df) :
    (Clean df = .error .MissingColumn ↔ df.hasAmount = false) ∧
    (df.hasAmount = true →
      (Clean df = .error .EmptyResult ↔ cleanRows df = [])) ∧
    Clean dfBadAmount = .error .EmptyResult := by
  refine ⟨?_, ?_, by decide⟩
  · unfold Clean
    by_cases hA : df.hasAmount = false
    · rw [if_pos hA]
      simp [hA]
    · rw [if_neg hA]
      simp only []
      constructor
      · intro h
        by_cases hE : (cleanRows df).isEmpty
        · rw [if_pos hE] at h
          simp at h
        · rw [if_neg hE] at h
          simp at h
      · intro h
        exact absurd h hA
  · intro hT
    unfold Clean
    rw [if_neg (by simp [hT])]
    simp only []
    by_cases hE : (cleanRows df).isEmpty
    · rw [if_pos hE]
      simp [List.isEmpty_iff.mp hE]
    · rw [if_neg hE]
      constructor
      · intro h
        simp at h
      · intro h
        exact absurd (List.isEmpty_iff.mpr h) hE

/-- Witness for C2 at the spec's example input. -/
theorem clean_failure_semantics_witness :
    Clean dfBadAmount = .error .EmptyResult ↔ cleanRows dfBadAmount = [] :=
  (clean_failure_semantics dfBadAmount).2.1 rfl

/-! ## C3: vertical truncation happens after grouping, not before -/

/-- C3 counterexample: on a dataset holding verticals `"AI"` (amount 100)
and `"AI, Machine Learning"` (amount 50), the script's Vertical view keeps
the two values as distinct groups and merely relabels the second one
`"AI"` after selection, yielding two rows labelled `"AI"` — not the single
aggregated group `("AI", 150)` the claim's before-grouping reduction would
produce. -/
theorem vertical_truncation_counterexample :
    TopKVerticalView cdfVert 2 = [("AI", 100), ("AI", 50)] ∧
    specVerticalTopK cdfVert 2 = [("AI", 150)] ∧
    TopKVerticalView cdfVert 2 ≠ specVerticalTopK cdfVert 2 := by
  with_unfolding_all decide

/-- Helper: `TopKByGroup` only emits per-group sums of the grouped amounts. -/
theorem mem_topKByGroup_sum {rows : List CRow} {key : CRow → Option String}
    {k : Nat} {q : String × ℚ} (hq : q ∈ TopKByGroup rows key k) :
    q.2 = ((rows.filter fun r => decide (key r = some q.1)).map (·.amount)).sum := by
  have h1 : q ∈ groupSums rows key :=
    (mem_insSort _).mp (List.mem_of_mem_take hq)
  obtain ⟨g, _, hgq⟩ := List.mem_map.mp h1
  cases hgq
  rfl

/-- C3 amended: in the Vertical view the comma-truncation and trim are
applied to the labels of the already selected top-k groups; every output
pair is the relabelling of a selected group whose sum ranges over the
records holding that *original* (untruncated) Vertical value. -/
theorem vertical_relabel_after_grouping (cdf : CDf) (k : Nat)
    (h : cdf.hasVertical = true) :
    ∀ p ∈ TopKVerticalView cdf k, ∃ g : String,
      p.1 = firstTokenTrim g ∧
      (g, p.2) ∈ TopKByGroup cdf.rows (·.vertical) k ∧
      p.2 = ((cdf.rows.filter fun r => decide (r.vertical = some g)).map (·.amount)).sum := by
  intro p hp
  rw [TopKVerticalView, if_pos h] at hp
  obtain ⟨q, hq, hqp⟩ := List.mem_map.mp hp
  refine ⟨q.1, ?_, ?_, ?_⟩
  · rw [← hqp]
  · rw [← hqp]
    exact hq
  · rw [← hqp]
    exact mem_topKByGroup_sum hq

/-- Witness for the amended C3 at `cdfVert`. -/
theorem vertical_relabel_after_grouping_witness :
    ∃ g : String,
      (("AI", (100 : ℚ)) : String × ℚ).1 = firstTokenTrim g ∧
      (g, (("AI", (100 : ℚ)) : String × ℚ).2) ∈ TopKByGroup cdfVert.rows (·.vertical) 2 ∧
      (("AI", (100 : ℚ)) : String × ℚ).2 =
        ((cdfVert.rows.filter fun r => decide (r.vertical = some g)).map (·.amount)).sum :=
  vertical_relabel_after_grouping cdfVert 2 rfl ("AI", 100)
    (by with_unfolding_all decide)

/-! ## C4: missing optional columns -/

/-- C4 counterexample: a cleaned dataset with a `Region` column but no
`Funding Date` column makes `RegionFilter "All"` raise (the `KeyError` of
`nlargest(20, 'Funding Date')`), a fatal error rather than the empty
result the claim promises. -/
theorem region_filter_missing_date_counterexample :
    RegionFilter cdfNoDate "All" = .error () ∧
    RegionFilter cdfNoDate "All" ≠ .ok [] := by
  decide

/-- C4 amended: each view guarded by an optional column degrades to an
empty result when that column is absent — except that `RegionFilter` with
the sentinel `"All"` raises a fatal error when `Region` is present but
`Funding Date` is absent. -/
theorem missing_optional_column_semantics (cdf : CDf) :
    (cdf.hasRegion = false → ∀ k, TopKRegionView cdf k = []) ∧
    (cdf.hasVertical = false → ∀ k, TopKVerticalView cdf k = []) ∧
    (cdf.hasStage = false → StageBoxplotView cdf = [] ∧ StageSummary cdf = []) ∧
    (cdf.hasRegion = false → ∀ reg, RegionFilter cdf reg = .ok []) ∧
    (cdf.hasDate = false → ∀ n, TopNByAmount cdf n = []) ∧
    (cdf.hasCompany = false → ∀ n, TopNByAmount cdf n = []) ∧
    (cdf.hasRegion = true → cdf.hasDate = false →
      RegionFilter cdf "All" = .error ()) := by
  refine ⟨fun h k => ?_, fun h k => ?_, fun h => ⟨?_, ?_⟩, fun h reg => ?_,
    fun h n => ?_, fun h n => ?_, fun h1 h2 => ?_⟩
  · simp [TopKRegionView, h]
  · simp [TopKVerticalView, h]
  · simp [StageBoxplotView, h]
  · simp [StageSummary, h]
  · simp [RegionFilter, h]
  · simp [TopNByAmount, h]
  · simp [TopNByAmount, h]
  · simp [RegionFilter, h1, h2]

/-- Witness for the amended C4 at `cdfNoDate`. -/
theorem missing_optional_column_semantics_witness :
    TopNByAmount cdfNoDate 10 = [] ∧ RegionFilter cdfNoDate "All" = .error () :=
  ⟨(missing_optional_column_semantics cdfNoDate).2.2.2.2.1 rfl 10,
   (missing_optional_column_semantics cdfNoDate).2.2.2.2.2.2 rfl rfl⟩

/-! ## C5: top-k ordering -/

/-- C5 counterexample: two region groups with equal sums — the result is
descending but not *strictly* descending. -/
theorem topk_strict_descending_counterexample :
    TopKRegionView cdfTie 2 = [("A", 100), ("B", 100)] ∧
    ¬ List.Pairwise (fun p q : String × ℚ => q.2 < p.2)
        [(("A" : String), (100 : ℚ)), ("B", 100)] := by
  constructor
  · with_unfolding_all decide
  · with_unfolding_all decide

/-- C5 amended: for every dataset, group column and `k`, `TopKByGroup`
returns at most `k` pairs, sorted descending (non-strictly: ties are
allowed and keep first-seen order) by summed amount. -/
theorem topk_sorted_descending (rows : List CRow) (key : CRow → Option String)
    (k : Nat) :
    (TopKByGroup rows key k).length ≤ k ∧
    List.Pairwise (fun p q : String × ℚ => q.2 ≤ p.2) (TopKByGroup rows key k) := by
  constructor
  · exact List.length_take_le _ _
  · have hs := @insSort_pairwise (String × ℚ)
      (fun p q : String × ℚ => decide (q.2 ≤ p.2))
      (fun a b c hab hbc => decide_eq_true_eq.mpr
        (le_trans (decide_eq_true_eq.mp hbc) (decide_eq_true_eq.mp hab)))
      (fun a b hab => decide_eq_true_eq.mpr
        (le_of_not_le fun hc => by simp [hc] at hab))
      (groupSums rows key)
    exact ((hs.sublist (List.take_sublist _ _)).imp fun h => decide_eq_true_eq.mp h)

/-! ## Comparator facts and `nlargest` -/

theorem keyDesc_trans {α β : Type} [LinearOrder β] (f : α → β) (a b c : α)
    (hab : decide (f b ≤ f a) = true) (hbc : decide (f c ≤ f b) = true) :
    decide (f c ≤ f a) = true :=
  decide_eq_true_eq.mpr (le_trans (decide_eq_true_eq.mp hbc) (decide_eq_true_eq.mp hab))

theorem keyDesc_total {α β : Type} [LinearOrder β] (f : α → β) (a b : α)
    (hab : decide (f b ≤ f a) = false) : decide (f a ≤ f b) = true :=
  decide_eq_true_eq.mpr (le_of_not_le fun hc => by simp [hc] at hab)

theorem keyAsc_trans {α β : Type} [LinearOrder β] (f : α → β) (a b c : α)
    (hab : decide (f a ≤ f b) = true) (hbc : decide (f b ≤ f c) = true) :
    decide (f a ≤ f c) = true :=
  decide_eq_true_eq.mpr (le_trans (decide_eq_true_eq.mp hab) (decide_eq_true_eq.mp hbc))

theorem keyAsc_total {α β : Type} [LinearOrder β] (f : α → β) (a b : α)
    (hab : decide (f a ≤ f b) = false) : decide (f b ≤ f a) = true :=
  decide_eq_true_eq.mpr (le_of_not_le fun hc => by simp [hc] at hab)

/-- The selected `k` of a stable descending selection are sorted, and
every unselected element compares below every selected one. -/
theorem nlargest_spec {α : Type} {le : α → α → Bool}
    (htrans : ∀ a b c, le a b = true → le b c = true → le a c = true)
    (htot : ∀ a b, le a b = false → le b a = true)
    (k : Nat) (l : List α) :
    (nlargest le k l).length ≤ k ∧
    (nlargest le k l).Pairwise (le · · = true) ∧
    ∀ r ∈ l, r ∉ nlargest le k l → ∀ x ∈ nlargest le k l, le x r = true := by
  refine ⟨List.length_take_le _ _,
    (insSort_pairwise htrans htot l).sublist (List.take_sublist _ _), ?_⟩
  intro r hr hnr x hx
  have hrs : r ∈ insSort le l := (mem_insSort le).mpr hr
  have hsplit : insSort le l = (insSort le l).take k ++ (insSort le l).drop k :=
    (List.take_append_drop k _).symm
  have hrd : r ∈ (insSort le l).drop k := by
    rcases List.mem_append.mp (hsplit ▸ hrs) with hcase | hcase
    · exact absurd hcase hnr
    · exact hcase
  have hp := insSort_pairwise htrans htot l
  rw [hsplit] at hp
  exact (List.pairwise_append.mp hp).2.2 x hx r hrd

/-! ## C6: box-plot outlier cutoff -/

/-- C6: every record of the box-plot view has funding amount strictly
below the 99.5th percentile of the *entire* cleaned dataset (the cutoff is
taken over all rows, before the stage filter). -/
theorem stage_boxplot_below_cutoff (cdf : CDf) (r : CRow)
    (h : r ∈ StageBoxplotView cdf) :
    r.amount < quantile995 (cdf.rows.map (·.amount)) := by
  rw [StageBoxplotView] at h
  by_cases hS : cdf.hasStage
  · rw [if_pos hS] at h
    have h2 := (mem_insSort
      (fun a b : CRow => decide (stageRank a.stage ≤ stageRank b.stage))).mp h
    have h3 := List.of_mem_filter h2
    exact decide_eq_true_eq.mp h3
  · rw [if_neg hS] at h
    exact absurd h (List.not_mem_nil r)

set_option maxRecDepth 4000 in
/-- Witness for C6 at `cdfStage`: the amount-1 record is in the view and
below the cutoff 1.995. -/
theorem stage_boxplot_below_cutoff_witness :
    (⟨some "C", some "US", some "AI", 1, some "Seed", some 5⟩ : CRow).amount <
      quantile995 (cdfStage.rows.map (·.amount)) :=
  stage_boxplot_below_cutoff cdfStage _ (by with_unfolding_all decide)

/-! ## C7: region filter -/

/-- C7: when the `Region` column is present: the `"All"` branch, whenever
it returns, yields at most 20 records, sorted descending by funding date,
such that every excluded record's date is at most every returned record's
date (the most recent records); any other region value returns exactly the
records with that region, in original order. -/
theorem region_filter_semantics (cdf : CDf) (h : cdf.hasRegion = true) :
    (∀ l, RegionFilter cdf "All" = .ok l →
      l.length ≤ 20 ∧
      List.Pairwise (fun a b : CRow => b.date.getD 0 ≤ a.date.getD 0) l ∧
      ∀ r ∈ cdf.rows, r ∉ l → ∀ x ∈ l, r.date.getD 0 ≤ x.date.getD 0) ∧
    (∀ reg, reg ≠ "All" →
      RegionFilter cdf reg = .ok (cdf.rows.filter fun r => decide (r.region = some reg))) := by
  constructor
  · intro l hl
    rw [RegionFilter, if_neg (by simp [h]), if_pos rfl] at hl
    by_cases hD : cdf.hasDate
    · rw [if_pos hD] at hl
      have hl2 : nlargest (fun a b => decide (b.date.getD 0 ≤ a.date.getD 0)) 20 cdf.rows = l :=
        (Except.ok.injEq _ _).mp hl
      obtain ⟨h1, h2, h3⟩ := nlargest_spec
        (keyDesc_trans fun r : CRow => r.date.getD 0)
        (keyDesc_total fun r : CRow => r.date.getD 0) 20 cdf.rows
      rw [hl2] at h1 h2 h3
      exact ⟨h1, h2.imp decide_eq_true_eq.mp,
        fun r hr hnr x hx => decide_eq_true_eq.mp (h3 r hr hnr x hx)⟩
    · rw [if_neg hD] at hl
      exact absurd hl (by simp)
  · intro reg hreg
    rw [RegionFilter, if_neg (by simp [h]), if_neg hreg]

set_option maxRecDepth 8000 in
/-- Witness for C7 at `cdfRecent`: the date-0 record is excluded from the
`"All"` view and its date is at most the date of the included date-20
record; the `"US"` branch filters by region. -/
theorem region_filter_semantics_witness :
    ((⟨some "C", some "US", some "AI", 1, some "Seed", some 0⟩ : CRow).date.getD 0 ≤
      (⟨some "C", some "US", some "AI", 1, some "Seed", some 20⟩ : CRow).date.getD 0) ∧
    RegionFilter cdfRecent "US" =
      .ok (cdfRecent.rows.filter fun r => decide (r.region = some "US")) :=
  ⟨((region_filter_semantics cdfRecent rfl).1 _ rfl).2.2
      ⟨some "C", some "US", some "AI", 1, some "Seed", some 0⟩ (by decide) (by decide)
      ⟨some "C", some "US", some "AI", 1, some "Seed", some 20⟩ (by decide),
   (region_filter_semantics cdfRecent rfl).2 "US" (by decide)⟩

/-! ## C8: stage-summary ordering -/

/-- C8: the stage-summary rows are sorted by vocabulary rank — every
stage outside the 18-entry vocabulary ranks after all known stages — and
the sort leaves the relative order of the unknown-stage rows unchanged
from the grouped (pre-sort) table. -/
theorem stage_summary_order (cdf : CDf) (h : cdf.hasStage = true) :
    List.Pairwise
      (fun a b : SRow => stageRank (some a.stage) ≤ stageRank (some b.stage))
      (StageSummary cdf) ∧
    (StageSummary cdf).filter (fun row => (idxIn stage_order row.stage).isNone) =
      (stageGroups cdf).filter (fun row => (idxIn stage_order row.stage).isNone) := by
  constructor
  · rw [StageSummary, if_pos h]
    exact (insSort_pairwise
      (keyAsc_trans fun a : SRow => stageRank (some a.stage))
      (keyAsc_total fun a : SRow => stageRank (some a.stage))
      (stageGroups cdf)).imp decide_eq_true_eq.mp
  · rw [StageSummary, if_pos h]
    refine insSort_filter_stable _ (fun a b hpa hpb => ?_) (stageGroups cdf)
    have ra : stageRank (some a.stage) = stage_order.length := by
      simp [stageRank, stageCode, Option.isNone_iff_eq_none.mp hpa]
    have rb : stageRank (some b.stage) = stage_order.length := by
      simp [stageRank, stageCode, Option.isNone_iff_eq_none.mp hpb]
    exact decide_eq_true_eq.mpr (by rw [ra, rb])

/-- Witness for C8 at `cdfStages` (stages `Seed`, `Zed`, `Aard`). -/
theorem stage_summary_order_witness :
    (StageSummary cdfStages).filter (fun row => (idxIn stage_order row.stage).isNone) =
      (stageGroups cdfStages).filter (fun row => (idxIn stage_order row.stage).isNone) :=
  (stage_summary_order cdfStages rfl).2

/-! ## C9: no mutation by the box-plot block -/

/-- C9: starting from a dataframe without the transient
`'Funding Stage Cat'` column, the box-plot block returns the dataframe
unchanged: the column it adds is dropped again before the block ends. -/
theorem stage_boxplot_no_mutation (d : WorkDf) (h : d.catCol = none) :
    (StageBoxplotOp d).1 = d := by
  rw [StageBoxplotOp]
  by_cases hS : d.base.hasStage
  · rw [if_pos hS]
    cases d with
    | mk base cat =>
        simp only at h
        subst h
        simp
  · rw [if_neg hS]

/-- Witness for C9 at `wdfEx`. -/
theorem stage_boxplot_no_mutation_witness : (StageBoxplotOp wdfEx).1 = wdfEx :=
  stage_boxplot_no_mutation wdfEx rfl

/-! ## C10: null group keys are dropped by grouping -/

/-- C10: a record whose group-column value is null contributes to no
group: appending it to the dataset changes neither the groups, nor their
sums, nor the top-k selection. -/
theorem topk_drops_null_group (rows : List CRow) (key : CRow → Option String)
    (k : Nat) (r : CRow) (h : key r = none) :
    TopKByGroup (rows ++ [r]) key k = TopKByGroup rows key k := by
  have hkeys : groupKeys (rows ++ [r]) key = groupKeys rows key := by
    rw [groupKeys, groupKeys, List.filterMap_append]
    simp [h]
  have hsums : groupSums (rows ++ [r]) key = groupSums rows key := by
    rw [groupSums, groupSums, hkeys]
    refine List.map_congr_left fun g hg => ?_
    rw [List.filter_append]
    simp [h]
  rw [TopKByGroup, TopKByGroup, hsums]

/-- Witness for C10: appending a null-region record to `cdfTie`'s rows
leaves the Region top-1 unchanged. -/
theorem topk_drops_null_group_witness :
    TopKByGroup (cdfTie.rows ++ [nullRegionRow]) (·.region) 1 =
      TopKByGroup cdfTie.rows (·.region) 1 :=
  topk_drops_null_group cdfTie.rows (·.region) 1 nullRegionRow rfl

end Funding
